import Mathlib

/-
  Verification of the neovim-mac redraw-event engine (src/ui.cpp).

  The definitions below are a shallow embedding of the C++ source.
  Pure value semantics replace in-place mutation: every handler maps an
  input state to an output state.  Machine pointers into the grid's cell
  vector become flat indices into a Lean list; `std::abort` on an invalid
  grid id becomes an `Option` result (`none` = abort); logged diagnostics
  become explicit `diag` values.

  The cell / grid / highlight-table data layout lives in ui.hpp, which is
  not part of the provided sources; those definitions are modelled from
  the specification and are marked as such in their doc comments.
-/

namespace UI

/-- Modelled from the spec: a color is either an explicit RGB value or a
default sentinel meaning "track the global default color"; the concrete
`rgb_color` struct is declared in ui.hpp which is not under src/.  The
`value` field holds the 32-bit RGB payload, `is_default` the sentinel tag.
`rgb_color(rgb)` in the source builds an explicit color;
`rgb_color(rgb, default_tag)` builds a default-tagged color. -/
structure rgb_color where
  value : Nat
  is_default : Bool
deriving DecidableEq, Repr

/-- Modelled from the spec: zero-initialized color (explicit, not the
default sentinel), as produced by C++ zero-initialization `= {}`. -/
def zero_rgb : rgb_color := ⟨0, false⟩

/-- Modelled from the spec: font-style flags (bold, italic). -/
structure font_attributes where
  bold : Bool := false
  italic : Bool := false
deriving DecidableEq, Repr

/-- Modelled from the spec: decoration flags (underline, strikethrough,
undercurl, reverse). -/
structure decoration_attributes where
  underline : Bool := false
  strikethrough : Bool := false
  undercurl : Bool := false
  reverse : Bool := false
deriving DecidableEq, Repr

/-- Modelled from the spec: highlight attributes are three colors plus
font-style and decoration flag sets (ui.hpp, not under src/). -/
structure highlight_attributes where
  foreground : rgb_color
  background : rgb_color
  special : rgb_color
  fontattrs : font_attributes
  attrs : decoration_attributes
deriving DecidableEq, Repr

/-- Modelled from the spec: the initial default highlight entry; all its
colors carry the default sentinel ("all colors set to default initially
resolve from this slot"). -/
def default_highlight_attributes : highlight_attributes :=
  { foreground := ⟨0, true⟩
    background := ⟨0, true⟩
    special := ⟨0, true⟩
    fontattrs := {}
    attrs := {} }

/-- Modelled from the spec: zero-initialized highlight attributes, as
produced by C++ zero-initialization of a `cell = {}`. -/
def zero_highlight_attributes : highlight_attributes :=
  { foreground := zero_rgb
    background := zero_rgb
    special := zero_rgb
    fontattrs := {}
    attrs := {} }

/-- Modelled from the spec: the fixed maximum number of text bytes a cell
stores (cell::max_text_size in ui.hpp, not under src/; the exact numeric
value does not affect any claim). -/
def max_text_size : Nat := 24

/-- Modelled from the spec: one screen cell — inline text bytes (capped at
`max_text_size`), a precomputed hash of the stored bytes, the stored byte
count, and a value-copy of the resolved highlight attributes.  Field
defaults are the C++ zero-initialization `cell ret = {}`. -/
structure cell where
  text : List Nat := []
  hash : Nat := 0
  size : Nat := 0
  hl_attrs : highlight_attributes := zero_highlight_attributes
deriving DecidableEq, Repr

/-- The multiplicative text hash from make_cell (ui.cpp): seed 5381, then
hash = hash * 33 + byte for each stored byte.  Modelled from the spec as
an unbounded natural: the hash field's machine width is declared in
ui.hpp, which is not under src/. -/
def djb2 (bytes : List Nat) : Nat :=
  bytes.foldl (fun h b => h * 33 + b) 5381

/-- make_cell (ui.cpp lines 84-104): a cell holding exactly one space byte
is the canonical empty cell (no text, no hash); otherwise the text is
truncated to `max_text_size` bytes and hashed. -/
def make_cell (text : List Nat) (hl : highlight_attributes) : cell :=
  let ret : cell := { hl_attrs := hl }
  if text = [32] then
    ret
  else
    let limit := min text.length max_text_size
    { text := text.take limit
      hash := djb2 (text.take limit)
      size := limit
      hl_attrs := hl }

/-- Modelled from the spec: a grid is width, height, a row-major flat cell
sequence of width*height cells, and a monotonic draw-tick (ui.hpp, not
under src/).  Cell (row, col) lives at flat index row * width + col. -/
structure grid where
  width : Nat := 0
  height : Nat := 0
  cells : List cell := []
  draw_tick : Nat := 0
deriving DecidableEq, Repr

/-- Modelled from the spec: the highlight table is an id-indexed growable
sequence of highlight attributes whose slot 0 is the distinguished default
entry (ui.hpp, not under src/); it starts holding just the default. -/
structure highlight_table where
  table : List highlight_attributes := [default_highlight_attributes]
deriving DecidableEq, Repr

/-- Modelled from the spec: get_default returns the distinguished default
entry (slot 0). -/
def highlight_table.get_default (t : highlight_table) : highlight_attributes :=
  t.table.getD 0 default_highlight_attributes

/-- Modelled from the spec: get_entry returns the entry for an id, or
nothing when the id has no table entry. -/
def highlight_table.get_entry (t : highlight_table) (hlid : Nat) :
    Option highlight_attributes :=
  t.table.get? hlid

/-- highlight_table::new_entry (ui.cpp lines 314-330), translated branch
for branch.  Returns the updated table together with the index of the
entry the returned pointer designates.  Note the third branch mirrors
`table.resize(hlid, default)` followed by `return &table.back()`: the
table's new size is `hlid` (not hlid + 1) and the pointer designates
index hlid - 1. -/
def highlight_table.new_entry (t : highlight_table) (hlid : Nat) :
    highlight_table × Nat :=
  if hlid = t.table.length then
    (⟨t.table ++ [t.get_default]⟩, t.table.length)
  else if hlid < t.table.length then
    (⟨t.table.set hlid t.get_default⟩, hlid)
  else
    (⟨t.table ++ List.replicate (hlid - t.table.length) t.get_default⟩,
     hlid - 1)

/-- Dynamic wire value (the msg::object tagged union consumed by ui.cpp):
integer, boolean, string (as raw bytes), array, ordered map. -/
inductive mobject where
  | integer (i : Int)
  | boolean (b : Bool)
  | string (s : List Nat)
  | array (a : List mobject)
  | map (m : List (mobject × mobject))

/-- Modelled from the spec: the C++ `as<size_t>()` integral conversion —
the value modulo 2^64 (the msgpack object type is not under src/). -/
def int_as_size (i : Int) : Nat := (i % (2 ^ 64 : Int)).toNat

/-- Modelled from the spec: the C++ `as<uint32_t>()` integral conversion —
the value modulo 2^32. -/
def int_as_uint32 (i : Int) : Nat := (i % (2 ^ 32 : Int)).toNat

/-- Diagnostic categories for the error logs emitted by ui.cpp.  Logging
is fire-and-forget in the source; the embedding returns the diagnostic so
theorems can talk about it. -/
inductive diag where
  | out_of_bounds
  | type_error
  | unknown_highlight
  | row_overflow
  | invalid_args
deriving DecidableEq, Repr

/-- The screen state (ui_state): the writable grid, the published grid,
and the highlight table.  The cursor-mode table is omitted: no claim in
this development touches it. -/
structure ui_state where
  writing : grid
  complete : grid
  hltable : highlight_table
deriving DecidableEq, Repr

/-- ui_state::get_grid (ui.cpp lines 108-114): only grid id 1 is valid;
any other id aborts the process (embedded as `none`). -/
def ui_state.get_grid (st : ui_state) (index : Nat) : Option grid :=
  if index = 1 then some st.writing else none

/-- cell_update (ui.cpp lines 169-205): the parsed form of one grid_line
cell-update tuple.  `hlattr` is the carried-forward resolved highlight
(a possibly null pointer in the source, value-copied here); `rep` is the
repeat count (named `repeat` in the source). -/
structure cell_update where
  text : List Nat := []
  hlattr : Option highlight_attributes := none
  rep : Nat := 0
deriving DecidableEq, Repr

/-- cell_update::set (ui.cpp lines 176-204): parses one of the three
tuple shapes [text], [text, hl_id], [text, hl_id, repeat]; returns none
(C++ `false`) on any other shape, leaving the update unmodified.  The
one-element shape keeps the previously carried highlight pointer. -/
def cell_update.set (u : cell_update) (o : mobject) (t : highlight_table) :
    Option cell_update :=
  match o with
  | .array [.string s] =>
      some { u with text := s, rep := 1 }
  | .array [.string s, .integer i] =>
      some { text := s, hlattr := t.get_entry (int_as_size i), rep := 1 }
  | .array [.string s, .integer i, .integer r] =>
      some { text := s, hlattr := t.get_entry (int_as_size i),
             rep := int_as_size r }
  | _ => none

/-- Writes a block of cells at consecutive flat indices (the effect of the
source's cell-by-cell stores and row memcpy); writes past the end of the
list are dropped, matching List.set. -/
def write_block : List cell → Nat → List cell → List cell
  | cells, _, [] => cells
  | cells, dst, b :: bs => write_block (cells.set dst b) (dst + 1) bs

/-- The loop-carried state of ui_state::grid_line (ui.cpp lines 215-244):
the cell vector, the write cursor as a flat index (the `cell` pointer),
the cells remaining in the row, the carried cell_update, and the
diagnostic that ended the loop, if any. -/
structure line_state where
  cells : List cell
  pos : Nat
  remaining : Nat
  upd : cell_update := {}
  err : Option diag := none
deriving DecidableEq, Repr

/-- The body of ui_state::grid_line's update loop (ui.cpp lines 219-244):
parse each tuple, fail fast on a malformed tuple, an unresolved highlight,
or a repeat overflowing the row; otherwise store the constructed cell,
replicate it `rep` times, and advance the cursor by `rep`.  Mirrors the
source exactly: even a repeat of 0 stores one cell (the unconditional
`*cell = make_cell(...)`) while advancing the cursor by 0. -/
def grid_line_loop (t : highlight_table) :
    line_state → List mobject → line_state
  | s, [] => s
  | s, o :: rest =>
    match s.upd.set o t with
    | none => { s with err := some .type_error }
    | some upd' =>
      match upd'.hlattr with
      | none => { s with upd := upd', err := some .unknown_highlight }
      | some hl =>
        if upd'.rep > s.remaining then
          { s with upd := upd', err := some .row_overflow }
        else
          let c := make_cell upd'.text hl
          let cells1 := s.cells.set s.pos c
          let cells2 := write_block cells1 (s.pos + 1)
                          (List.replicate (upd'.rep - 1) c)
          grid_line_loop t
            { cells := cells2
              pos := s.pos + upd'.rep
              remaining := s.remaining - upd'.rep
              upd := upd'
              err := none } rest

/-- ui_state::grid_line (ui.cpp lines 207-245): bounds-check (row, col),
then run the update loop from flat index row * width + col with
width - col cells remaining.  Result pairs the new state with the
diagnostic, if any; `none` is the get_grid abort. -/
def ui_state.grid_line (st : ui_state) (grid_id row col : Nat)
    (cells : List mobject) : Option (ui_state × Option diag) :=
  match st.get_grid grid_id with
  | none => none
  | some g =>
    if row ≥ g.height ∨ col ≥ g.width then
      some (st, some .out_of_bounds)
    else
      let s := grid_line_loop st.hltable
        { cells := g.cells
          pos := row * g.width + col
          remaining := g.width - col } cells
      some ({ st with writing := { g with cells := s.cells } }, s.err)

/-- The row-copy loop of ui_state::grid_scroll (ui.cpp lines 292-296) on
natural offsets: each iteration memcpy's `len` cells from flat offset
`src` to flat offset `dst`, then both advance by `rw`.  The memcpy is
value-faithful: within one call source and destination never overlap
partially (they are a whole multiple of the grid width apart). -/
def scroll_loop_nat : List cell → Nat → Nat → Nat → Nat → Nat → List cell
  | cells, _, _, _, _, 0 => cells
  | cells, dst, src, rw, len, n + 1 =>
      scroll_loop_nat (write_block cells dst ((cells.drop src).take len))
        (dst + rw) (src + rw) rw len n

/-- The row-copy loop of ui_state::grid_scroll with the source's signed
pointer arithmetic (cell* and long row_width); negative offsets clamp to
0 via toNat, which valid calls never reach. -/
def scroll_loop : List cell → Int → Int → Int → Nat → Nat → List cell
  | cells, _, _, _, _, 0 => cells
  | cells, dst, src, rw, len, n + 1 =>
      scroll_loop
        (write_block cells dst.toNat ((cells.drop src.toNat).take len))
        (dst + rw) (src + rw) rw len n

/-- ui_state::grid_scroll (ui.cpp lines 257-297): reject inverted or
out-of-bounds rectangles, then shift the region [top,bottom)x[left,right)
by `rows`, iterating top-down for nonnegative `rows` and bottom-up for
negative `rows`.  `none` is the get_grid abort. -/
def ui_state.grid_scroll (st : ui_state) (grid_id : Nat)
    (top bottom left right : Nat) (rows : Int) :
    Option (ui_state × Option diag) :=
  if bottom < top ∨ right < left then
    some (st, some .invalid_args)
  else
    match st.get_grid grid_id with
    | none => none
    | some g =>
      let height := bottom - top
      let width := right - left
      if bottom > g.height ∨ right > g.width then
        some (st, some .out_of_bounds)
      else
        let start : Int × Int × Int :=
          if 0 ≤ rows then
            (((top * g.width + left : Nat) : Int), (g.width : Int),
             (height : Int) - rows)
          else
            ((((bottom - 1) * g.width + left : Nat) : Int), -(g.width : Int),
             (height : Int) + rows)
        let dest := start.1
        let src := dest + (g.width : Int) * rows
        let cells' := scroll_loop g.cells dest src start.2.1 width
                        start.2.2.toNat
        some ({ st with writing := { g with cells := cells' } }, none)

/-- ui_state::flush (ui.cpp lines 305-312): bump the writing buffer's
draw_tick, publish it through the atomic complete slot, and copy the
just-completed contents into the reclaimed buffer, which becomes the new
writing buffer. -/
def ui_state.flush (st : ui_state) : ui_state :=
  let completed := { st.writing with draw_tick := st.writing.draw_tick + 1 }
  { st with writing := completed, complete := completed }

/-- The byte string "foreground". -/
def key_foreground : List Nat := [102, 111, 114, 101, 103, 114, 111, 117, 110, 100]

/-- The byte string "background". -/
def key_background : List Nat := [98, 97, 99, 107, 103, 114, 111, 117, 110, 100]

/-- The byte string "underline". -/
def key_underline : List Nat := [117, 110, 100, 101, 114, 108, 105, 110, 101]

/-- The byte string "bold". -/
def key_bold : List Nat := [98, 111, 108, 100]

/-- The byte string "italic". -/
def key_italic : List Nat := [105, 116, 97, 108, 105, 99]

/-- The byte string "strikethrough". -/
def key_strikethrough : List Nat :=
  [115, 116, 114, 105, 107, 101, 116, 104, 114, 111, 117, 103, 104]

/-- The byte string "undercurl". -/
def key_undercurl : List Nat := [117, 110, 100, 101, 114, 99, 117, 114, 108]

/-- The byte string "special". -/
def key_special : List Nat := [115, 112, 101, 99, 105, 97, 108]

/-- The byte string "reverse". -/
def key_reverse : List Nat := [114, 101, 118, 101, 114, 115, 101]

/-- set_rgb_color (ui.cpp lines 360-369): store the integer value as an
explicit (non-default) RGB color; a non-integer value is logged and the
color is left unchanged. -/
def set_rgb_color (c : rgb_color) (o : mobject) : rgb_color :=
  match o with
  | .integer i => ⟨int_as_uint32 i, false⟩
  | _ => c

/-- One iteration of the key loop in ui_state::hl_attr_define (ui.cpp
lines 375-409): apply one definition-map pair to the entry under
construction, tracking whether the reverse key was seen.  A non-string
key is logged and skipped; an unrecognized string key is logged and
ignored. -/
def apply_hl_key (e : highlight_attributes × Bool)
    (pair : mobject × mobject) : highlight_attributes × Bool :=
  match pair.1 with
  | .string name =>
    if name = key_foreground then
      ({ e.1 with foreground := set_rgb_color e.1.foreground pair.2 }, e.2)
    else if name = key_background then
      ({ e.1 with background := set_rgb_color e.1.background pair.2 }, e.2)
    else if name = key_underline then
      ({ e.1 with attrs := { e.1.attrs with underline := true } }, e.2)
    else if name = key_bold then
      ({ e.1 with fontattrs := { e.1.fontattrs with bold := true } }, e.2)
    else if name = key_italic then
      ({ e.1 with fontattrs := { e.1.fontattrs with italic := true } }, e.2)
    else if name = key_strikethrough then
      ({ e.1 with attrs := { e.1.attrs with strikethrough := true } }, e.2)
    else if name = key_undercurl then
      ({ e.1 with attrs := { e.1.attrs with undercurl := true } }, e.2)
    else if name = key_special then
      ({ e.1 with special := set_rgb_color e.1.special pair.2 }, e.2)
    else if name = key_reverse then
      ({ e.1 with attrs := { e.1.attrs with reverse := true } }, true)
    else
      e
  | _ => e

/-- ui_state::hl_attr_define (ui.cpp lines 371-414): obtain the entry via
highlight_table::new_entry (which resets it to the current default),
apply each definition-map pair in order, and, if the reverse key was
seen, swap foreground and background as the final step. -/
def ui_state.hl_attr_define (st : ui_state) (hlid : Nat)
    (definition : List (mobject × mobject)) : ui_state :=
  let p := st.hltable.new_entry hlid
  let start := p.1.table.getD p.2 default_highlight_attributes
  let res := definition.foldl apply_hl_key (start, false)
  let final :=
    if res.2 then
      { res.1 with foreground := res.1.background,
                   background := res.1.foreground }
    else res.1
  { st with hltable := ⟨p.1.table.set p.2 final⟩ }

/-- The per-cell rewrite of ui_state::default_colors_set (ui.cpp lines
345-357): each color field still holding the default sentinel is replaced
by the corresponding new default color. -/
def recolor_cell (fg bg sp : rgb_color) (c : cell) : cell :=
  { c with hl_attrs :=
    { c.hl_attrs with
      foreground :=
        if c.hl_attrs.foreground.is_default then fg else c.hl_attrs.foreground
      background :=
        if c.hl_attrs.background.is_default then bg else c.hl_attrs.background
      special :=
        if c.hl_attrs.special.is_default then sp else c.hl_attrs.special } }

/-- ui_state::default_colors_set (ui.cpp lines 332-358): store the three
colors (tagged with the default sentinel, mirroring the
rgb_color(..., default_tag) constructors) into the default entry, clear
its flag sets, then rewrite every writing-grid cell whose color fields
hold the default sentinel. -/
def ui_state.default_colors_set (st : ui_state) (fg bg sp : Nat) : ui_state :=
  let rgb_fg : rgb_color := ⟨fg, true⟩
  let rgb_bg : rgb_color := ⟨bg, true⟩
  let rgb_sp : rgb_color := ⟨sp, true⟩
  let def_entry : highlight_attributes :=
    { foreground := rgb_fg
      background := rgb_bg
      special := rgb_sp
      fontattrs := {}
      attrs := {} }
  { st with
    hltable := ⟨st.hltable.table.set 0 def_entry⟩
    writing :=
      { st.writing with
        cells := st.writing.cells.map (recolor_cell rgb_fg rgb_bg rgb_sp) } }

/-- The expected dynamic type of one handler parameter, after the
collapsing done by the source's `is<T>` helper (ui.cpp lines 27-34): any
integral non-boolean parameter type accepts a dynamic integer; boolean,
string, array and map require an exact dynamic-type match. -/
inductive mty where
  | integer
  | boolean
  | string
  | array
  | map
deriving DecidableEq, Repr

/-- Whether a dynamic value satisfies an expected parameter type
(the `is<Ts>(args[index])` checks of apply_one). -/
def mty.matches_value : mty → mobject → Bool
  | .integer, .integer _ => true
  | .boolean, .boolean _ => true
  | .string, .string _ => true
  | .array, .array _ => true
  | .map, .map _ => true
  | _, _ => false

/-- The positional fold `(is<Ts>(args[index++]) && ...)` of apply_one:
checks the first `ts.length` values of the tuple against the expected
types. -/
def args_match : List mty → List mobject → Bool
  | [], _ => true
  | _ :: _, [] => false
  | t :: ts, a :: rest => t.matches_value a && args_match ts rest

/-- apply_one (ui.cpp lines 53-73): type-check one candidate tuple and,
when it is an array whose length is at least the parameter count and
whose first `ts.length` values match the expected types, invoke the
handler on that prefix; otherwise log an argument type error and leave
the state unchanged.  The handler abstracts the member function together
with the source's `get<Ts>` conversions. -/
def apply_one {σ : Type} (state : σ) (handler : σ → List mobject → σ)
    (ts : List mty) (o : mobject) : σ × Option diag :=
  match o with
  | .array args =>
    if ts.length ≤ args.length ∧ args_match ts args then
      (handler state (args.take ts.length), none)
    else
      (state, some .type_error)
  | _ => (state, some .type_error)

/-- The tuple loop of `apply` (ui.cpp lines 75-82): process every
candidate tuple of the event independently, threading the state and
collecting the diagnostics. -/
def apply_loop {σ : Type} (state : σ) (handler : σ → List mobject → σ)
    (ts : List mty) : List mobject → σ × List diag
  | [] => (state, [])
  | o :: rest =>
    let r := apply_one state handler ts o
    let r2 := apply_loop r.1 handler ts rest
    (r2.1, (match r.2 with | some d => [d] | none => []) ++ r2.2)

/-- A session-start screen state used to instantiate theorems: a 4 x 2
grid of zero-initialized cells and the initial highlight table. -/
def initial_state : ui_state :=
  { writing := { width := 4, height := 2, cells := List.replicate 8 {},
                 draw_tick := 0 }
    complete := { width := 4, height := 2, cells := List.replicate 8 {},
                  draw_tick := 0 }
    hltable := {} }

/-- A one-row screen state used to instantiate theorems: a 4 x 1 grid of
zero-initialized cells and the initial highlight table. -/
def wide_state : ui_state :=
  { writing := { width := 4, height := 1, cells := List.replicate 4 {},
                 draw_tick := 0 }
    complete := { width := 4, height := 1, cells := List.replicate 4 {},
                  draw_tick := 0 }
    hltable := {} }

/- ------------------------------------------------------------------ -/
/- Helper lemmas                                                       -/
/- ------------------------------------------------------------------ -/

theorem write_block_length (block : List cell) :
    ∀ (cells : List cell) (dst : Nat),
    (write_block cells dst block).length = cells.length := by
  induction block with
  | nil => intro cells dst; rfl
  | cons b bs ih =>
    intro cells dst
    show (write_block (cells.set dst b) (dst + 1) bs).length = _
    rw [ih]
    exact cells.length_set dst b

theorem write_block_getElem_out (block : List cell) :
    ∀ (cells : List cell) (dst k : Nat),
    (k < dst ∨ dst + block.length ≤ k) →
    (write_block cells dst block)[k]? = cells[k]? := by
  induction block with
  | nil => intro _ _ _ _; rfl
  | cons b bs ih =>
    intro cells dst k hk
    show (write_block (cells.set dst b) (dst + 1) bs)[k]? = _
    rw [ih (cells.set dst b) (dst + 1) k (by simp at hk ⊢; omega)]
    exact List.getElem?_set_ne (by simp at hk; omega)

theorem write_block_getElem_in (block : List cell) :
    ∀ (cells : List cell) (dst j : Nat),
    dst + block.length ≤ cells.length → j < block.length →
    (write_block cells dst block)[dst + j]? = block[j]? := by
  induction block with
  | nil => intro _ _ j _ hj; simp at hj
  | cons b bs ih =>
    intro cells dst j hlen hj
    show (write_block (cells.set dst b) (dst + 1) bs)[dst + j]? = _
    cases j with
    | zero =>
      rw [write_block_getElem_out bs _ _ _ (Or.inl (by omega))]
      simp only [Nat.add_zero]
      rw [List.getElem?_set_self (by simp at hlen ⊢; omega)]
      simp
    | succ j' =>
      have h := ih (cells.set dst b) (dst + 1) j'
        (by simp at hlen ⊢; omega) (by simp at hj; omega)
      rw [show dst + (j' + 1) = dst + 1 + j' by omega, h]
      simp

theorem new_entry_le (t : highlight_table) (hlid : Nat)
    (hle : hlid ≤ t.table.length) :
    (t.new_entry hlid).2 = hlid ∧
    hlid < (t.new_entry hlid).1.table.length ∧
    (t.new_entry hlid).1.table[hlid]? = some t.get_default := by
  by_cases h : hlid = t.table.length
  · subst h
    have he : t.new_entry t.table.length =
        (⟨t.table ++ [t.get_default]⟩, t.table.length) := by
      simp [highlight_table.new_entry]
    rw [he]
    refine ⟨rfl, by simp, ?_⟩
    rw [List.getElem?_append_right (le_refl _)]
    simp
  · have hlt : hlid < t.table.length := by omega
    have he : t.new_entry hlid =
        (⟨t.table.set hlid t.get_default⟩, hlid) := by
      simp [highlight_table.new_entry, h, hlt]
    rw [he]
    exact ⟨rfl, by simp [hlt],
           List.getElem?_set_self (by simp [hlt])⟩

theorem int_as_size_ofNat (n : Nat) (h : n < 2 ^ 64) :
    int_as_size (n : Int) = n := by
  unfold int_as_size
  rw [Int.emod_eq_of_lt (by exact_mod_cast Nat.zero_le n)
        (by exact_mod_cast h)]
  simp

theorem set_write_block_replicate (cells : List cell) (pos r : Nat)
    (c : cell) (h : 1 ≤ r) :
    write_block (cells.set pos c) (pos + 1) (List.replicate (r - 1) c) =
      write_block cells pos (List.replicate r c) := by
  cases r with
  | zero => omega
  | succ n =>
    rw [List.replicate_succ]
    rfl

theorem grid_line_loop_step (t : highlight_table) (cells : List cell)
    (pos remaining : Nat) (upd : cell_update) (err : Option diag)
    (txt : List Nat) (hlid r : Nat) (hl : highlight_attributes)
    (rest : List mobject) (hb : hlid < 2 ^ 64) (hrb : r < 2 ^ 64)
    (hhl : t.get_entry hlid = some hl) (h1 : 1 ≤ r)
    (hrem : r ≤ remaining) :
    grid_line_loop t
      { cells := cells, pos := pos, remaining := remaining,
        upd := upd, err := err }
      (.array [.string txt, .integer (hlid : Int), .integer (r : Int)]
        :: rest) =
      grid_line_loop t
        { cells := write_block cells pos
            (List.replicate r (make_cell txt hl))
          pos := pos + r
          remaining := remaining - r
          upd := { text := txt, hlattr := some hl, rep := r }
          err := none } rest := by
  have hs : cell_update.set upd
      (.array [.string txt, .integer (hlid : Int), .integer (r : Int)]) t =
      some { text := txt, hlattr := some hl, rep := r } := by
    simp only [cell_update.set, int_as_size_ofNat hlid hb,
               int_as_size_ofNat r hrb, hhl]
  simp only [grid_line_loop, hs]
  have hcond : ¬ (({ text := txt, hlattr := some hl, rep := r } :
      cell_update).rep > remaining) := by
    show ¬ (r > remaining)
    omega
  rw [if_neg hcond]
  rw [set_write_block_replicate _ _ _ _ h1]

theorem grid_line_loop_append (t : highlight_table) (xs : List mobject) :
    ∀ (s : line_state), s.err = none → ∀ (ys : List mobject),
    grid_line_loop t s (xs ++ ys) =
      (if (grid_line_loop t s xs).err = none
       then grid_line_loop t (grid_line_loop t s xs) ys
       else grid_line_loop t s xs) := by
  induction xs with
  | nil =>
    intro s hs ys
    show grid_line_loop t s ys = _
    rw [show grid_line_loop t s [] = s from rfl, if_pos hs]
  | cons o xs ih =>
    intro s hs ys
    show grid_line_loop t s (o :: (xs ++ ys)) = _
    rcases hset : s.upd.set o t with _ | u
    · simp [grid_line_loop, hset]
    · rcases hhl : u.hlattr with _ | hl
      · simp [grid_line_loop, hset, hhl]
      · by_cases hov : u.rep > s.remaining
        · simp [grid_line_loop, hset, hhl, hov]
        · simp only [grid_line_loop, hset, hhl, if_neg hov]
          exact ih _ rfl ys

theorem write_block_drop_take_self (cells : List cell) (d len : Nat) :
    write_block cells d ((cells.drop d).take len) = cells := by
  apply List.ext_getElem?
  intro k
  by_cases hd : d ≤ cells.length
  · have hblen : ((cells.drop d).take len).length =
        min len (cells.length - d) := by
      simp [List.length_take, List.length_drop]
    by_cases hk : d ≤ k ∧ k < d + min len (cells.length - d)
    · obtain ⟨hk1, hk2⟩ := hk
      rw [show k = d + (k - d) from by omega]
      rw [write_block_getElem_in _ _ _ _ (by rw [hblen]; omega)
            (by rw [hblen]; omega)]
      rw [List.getElem?_take_of_lt (by omega), List.getElem?_drop]
    · rw [write_block_getElem_out _ _ _ _ (by rw [hblen]; omega)]
  · have hnil : cells.drop d = [] := List.drop_eq_nil_of_le (by omega)
    rw [hnil, List.take_nil]
    rfl

theorem scroll_loop_nat_self (rw len : Nat) :
    ∀ (count : Nat) (cells : List cell) (d : Nat),
    scroll_loop_nat cells d d rw len count = cells := by
  intro count
  induction count with
  | zero => intro cells d; rfl
  | succ n ih =>
    intro cells d
    show scroll_loop_nat (write_block cells d ((cells.drop d).take len))
      (d + rw) (d + rw) rw len n = cells
    rw [write_block_drop_take_self]
    exact ih cells (d + rw)

theorem scroll_loop_int_eq_nat (len : Nat) :
    ∀ (count : Nat) (cells : List cell) (dst src rw : Nat),
    scroll_loop cells (dst : Int) (src : Int) (rw : Int) len count =
      scroll_loop_nat cells dst src rw len count := by
  intro count
  induction count with
  | zero => intro cells dst src rw; rfl
  | succ n ih =>
    intro cells dst src rw
    show scroll_loop
      (write_block cells (dst : Int).toNat
        ((cells.drop (src : Int).toNat).take len))
      ((dst : Int) + (rw : Int)) ((src : Int) + (rw : Int)) (rw : Int)
      len n = _
    rw [show ((dst : Int) + (rw : Int)) = ((dst + rw : Nat) : Int) by
          push_cast; ring,
        show ((src : Int) + (rw : Int)) = ((src + rw : Nat) : Int) by
          push_cast; ring]
    rw [show (dst : Int).toNat = dst from by omega,
        show (src : Int).toNat = src from by omega]
    exact ih _ _ _ _

theorem row_lt_index (W a b x y : Nat) (hab : a < b) (hx : x < W) :
    a * W + x < b * W + y := by
  have h1 : (a + 1) * W ≤ b * W := Nat.mul_le_mul_right W hab
  have h2 : (a + 1) * W = a * W + W := by ring
  omega

theorem scroll_loop_nat_spec (W rn left width : Nat) (orig : List cell)
    (hrn : 1 ≤ rn) (hlw : left + width ≤ W) :
    ∀ (count start : Nat) (cur : List cell),
    cur.length = orig.length →
    (start + count + rn) * W ≤ orig.length →
    (∀ k, start * W ≤ k → cur[k]? = orig[k]?) →
    (∀ rI cI, start ≤ rI → rI < start + count → left ≤ cI →
        cI < left + width →
      (scroll_loop_nat cur (start * W + left) ((start + rn) * W + left)
          W width count)[rI * W + cI]? = orig[(rI + rn) * W + cI]?) ∧
    (∀ k, (∀ rI cI, start ≤ rI → rI < start + count → left ≤ cI →
        cI < left + width → k ≠ rI * W + cI) →
      (scroll_loop_nat cur (start * W + left) ((start + rn) * W + left)
          W width count)[k]? = cur[k]?) := by
  intro count
  induction count with
  | zero =>
    intro start cur hclen hbound hagree
    constructor
    · intro rI cI h1 h2 h3 h4
      omega
    · intro k _
      rfl
  | succ n ih =>
    intro start cur hclen hbound hagree
    have e2 : (start + rn + 1) * W ≤ (start + (n + 1) + rn) * W :=
      Nat.mul_le_mul_right _ (by omega)
    have e2' : (start + rn + 1) * W = (start + rn) * W + W := by ring
    have hsw : (start + rn) * W + left + width ≤ orig.length := by omega
    have hsrc_ge : (start + 1) * W ≤ (start + rn) * W :=
      Nat.mul_le_mul_right _ (by omega)
    have e3 : (start + 1) * W = start * W + W := by ring
    have e5 : (start + 1) * W ≤ (start + (n + 1) + rn) * W :=
      Nat.mul_le_mul_right _ (by omega)
    have hdstlen : start * W + left + width ≤ cur.length := by omega
    have hblen : ((cur.drop ((start + rn) * W + left)).take width).length =
        width := by
      rw [List.length_take, List.length_drop]
      omega
    have hblockj : ∀ j, j < width →
        ((cur.drop ((start + rn) * W + left)).take width)[j]? =
          orig[(start + rn) * W + left + j]? := by
      intro j hj
      rw [List.getElem?_take_of_lt hj, List.getElem?_drop]
      exact hagree _ (by omega)
    have hunf : scroll_loop_nat cur (start * W + left)
        ((start + rn) * W + left) W width (n + 1) =
        scroll_loop_nat
          (write_block cur (start * W + left)
            ((cur.drop ((start + rn) * W + left)).take width))
          ((start + 1) * W + left) ((start + 1 + rn) * W + left)
          W width n := by
      show scroll_loop_nat
        (write_block cur (start * W + left)
          ((cur.drop ((start + rn) * W + left)).take width))
        (start * W + left + W) ((start + rn) * W + left + W)
        W width n = _
      rw [show start * W + left + W = (start + 1) * W + left by ring,
          show (start + rn) * W + left + W = (start + 1 + rn) * W + left by
            ring]
    have ihres := ih (start + 1)
      (write_block cur (start * W + left)
        ((cur.drop ((start + rn) * W + left)).take width))
      (by rw [write_block_length]; exact hclen)
      (by rw [show (start + 1 + n + rn) * W = (start + (n + 1) + rn) * W by
            ring]
          exact hbound)
      (by intro k hk
          rw [write_block_getElem_out _ _ _ _
                (Or.inr (by rw [hblen]; omega))]
          exact hagree k (by omega))
    constructor
    · intro rI cI hr1 hr2 hc1 hc2
      rw [hunf]
      by_cases hrs : start + 1 ≤ rI
      · exact ihres.1 rI cI hrs (by omega) hc1 hc2
      · obtain rfl : rI = start := by omega
        rw [ihres.2 (rI * W + cI)
              (fun rI' cI' ha hb hc hd =>
                Nat.ne_of_lt (row_lt_index W rI rI' cI cI' (by omega)
                  (by omega)))]
        rw [show rI * W + cI = (rI * W + left) + (cI - left) from by omega]
        rw [write_block_getElem_in _ _ _ _ (by rw [hblen]; omega)
              (by rw [hblen]; omega)]
        rw [hblockj (cI - left) (by omega)]
        rw [show (rI + rn) * W + left + (cI - left) = (rI + rn) * W + cI
              from by omega]
    · intro k hknot
      rw [hunf]
      rw [ihres.2 k
            (fun rI' cI' ha hb hc hd =>
              hknot rI' cI' (by omega) (by omega) hc hd)]
      have hout : k < start * W + left ∨ start * W + left + width ≤ k := by
        by_contra hcon
        push_neg at hcon
        exact hknot start (k - start * W) (le_refl _) (by omega) (by omega)
          (by omega) (by omega)
      rw [write_block_getElem_out _ _ _ _ (by rw [hblen]; omega)]

/- ------------------------------------------------------------------ -/
/- Claim theorems                                                      -/
/- ------------------------------------------------------------------ -/

/-- C8: every flush() publishes a grid whose draw-tick is exactly one
more than the writing buffer's draw-tick before the call, leaves the
published buffer's cells and dimensions exactly those of the writing
buffer (no cell is mutated), makes the new writing buffer equal to the
just-published buffer, and hence two consecutive flushes each increment
the draw-tick by one and the published draw-tick never decreases. -/
theorem C8_flush_draw_tick (st : ui_state) :
    (st.flush).complete.draw_tick = st.writing.draw_tick + 1 ∧
    (st.flush).complete.cells = st.writing.cells ∧
    (st.flush).complete.width = st.writing.width ∧
    (st.flush).complete.height = st.writing.height ∧
    (st.flush).writing = (st.flush).complete ∧
    ((st.flush).flush).complete.draw_tick =
      (st.flush).complete.draw_tick + 1 ∧
    (st.flush).complete.draw_tick ≤ ((st.flush).flush).complete.draw_tick := by
  refine ⟨rfl, rfl, rfl, rfl, rfl, rfl, ?_⟩
  show st.writing.draw_tick + 1 ≤ st.writing.draw_tick + 1 + 1
  omega

/-- C9: a constructed cell stores at most max_text_size text bytes
(longer text is truncated, never rejected), carries the resolved
highlight attributes, its hash is the multiplicative fold
hash = hash * 33 + byte over the stored bytes from seed 5381, and a text
of exactly one space byte yields the canonical empty cell (no text, no
hash, only the highlight attributes). -/
theorem C9_make_cell_shape (text : List Nat) (hl : highlight_attributes) :
    (make_cell text hl).size ≤ max_text_size ∧
    (make_cell text hl).text.length ≤ max_text_size ∧
    (make_cell text hl).hl_attrs = hl ∧
    (text ≠ [32] →
      (make_cell text hl).text = text.take max_text_size ∧
      (make_cell text hl).hash = djb2 ((make_cell text hl).text)) ∧
    make_cell [32] hl = { hl_attrs := hl } := by
  have hempty : make_cell [32] hl = { hl_attrs := hl } := by
    simp [make_cell]
  by_cases h : text = [32]
  · subst h
    refine ⟨?_, ?_, ?_, fun hc => absurd rfl hc, hempty⟩
    · rw [hempty]; simp [max_text_size]
    · rw [hempty]; simp [max_text_size]
    · rw [hempty]
  · have hmc : make_cell text hl =
        { text := text.take (min text.length max_text_size)
          hash := djb2 (text.take (min text.length max_text_size))
          size := min text.length max_text_size
          hl_attrs := hl } := by
      simp only [make_cell, if_neg h]
    refine ⟨?_, ?_, ?_, fun _ => ⟨?_, ?_⟩, hempty⟩
    · rw [hmc]; show min text.length max_text_size ≤ max_text_size; omega
    · rw [hmc]; simp [List.length_take]
    · rw [hmc]
    · rw [hmc]
      show text.take (min text.length max_text_size) =
        text.take max_text_size
      rcases Nat.le_total text.length max_text_size with hle | hle
      · rw [Nat.min_eq_left hle, List.take_length,
            List.take_of_length_le hle]
      · rw [Nat.min_eq_right hle]
    · rw [hmc]

/-- C9 witness: the theorem applied to the two-byte text [65, 66]. -/
theorem C9_make_cell_shape_witness :
    (make_cell [65, 66] default_highlight_attributes).text =
      [65, 66].take max_text_size ∧
    (make_cell [65, 66] default_highlight_attributes).hash =
      djb2 ((make_cell [65, 66] default_highlight_attributes).text) :=
  (C9_make_cell_shape [65, 66] default_highlight_attributes).2.2.2.1
    (by decide)

/-- C1: the claim states that after hl_attr_define(hlid, m) the table has
a valid entry at index hlid (table.size() > hlid) with intervening ids
backfilled.  The code violates this when hlid exceeds the table's size:
highlight_table::new_entry does table.resize(hlid, default) — size
becomes hlid, not hlid + 1 — and returns &table.back(), so the defined
attributes land at index hlid - 1 and index hlid has no entry.  Here:
on the initial one-entry table, hl_attr_define(2, {foreground: 0x123456})
leaves a table of size 2, no entry at index 2, and the foreground value
stored at index 1. -/
theorem C1_new_entry_off_by_one :
    (initial_state.hl_attr_define 2
      [(.string key_foreground, .integer 1193046)]).hltable.table.length
      = 2 ∧
    (initial_state.hl_attr_define 2
      [(.string key_foreground, .integer 1193046)]).hltable.table[2]? =
      none ∧
    ((initial_state.hl_attr_define 2
      [(.string key_foreground, .integer 1193046)]).hltable.table[1]?).map
      (fun e => e.foreground) = some ⟨1193046, false⟩ := by
  decide

/-- C2 counterexample: a tuple with two dynamic values bound against a
one-parameter handler is not discarded — apply_one's size check is
size <= args.size(), so the handler is invoked (the counter increments)
and no diagnostic is emitted, contradicting the claim that any arity
difference discards the tuple. -/
theorem C2_extra_args_still_invoked :
    apply_one 0 (fun (n : Nat) _ => n + 1) [mty.integer]
      (mobject.array [mobject.integer 0, mobject.integer 1]) = (1, none) := by
  decide

/-- C2 amended: a tuple with fewer dynamic values than the handler's
parameter count is discarded with an error diagnostic and the remaining
tuples of the same event are still processed from the unchanged state;
tuples with more values than parameters are accepted with the extra
values ignored. -/
theorem C2_arity_too_few_discards {σ : Type} (state : σ)
    (handler : σ → List mobject → σ) (ts : List mty)
    (args rest : List mobject) (h : args.length < ts.length) :
    apply_one state handler ts (.array args) =
      (state, some diag.type_error) ∧
    apply_loop state handler ts (mobject.array args :: rest) =
      ((apply_loop state handler ts rest).1,
        diag.type_error :: (apply_loop state handler ts rest).2) := by
  have h1 : apply_one state handler ts (.array args) =
      (state, some diag.type_error) := by
    simp only [apply_one]
    rw [if_neg (fun hc => absurd hc.1 (by omega))]
  refine ⟨h1, ?_⟩
  simp only [apply_loop, h1, List.singleton_append]

/-- C2 amended witness: an empty tuple bound against a one-parameter
handler, followed by a sibling tuple that is still processed. -/
theorem C2_arity_too_few_discards_witness :
    apply_one 0 (fun (n : Nat) _ => n + 1) [mty.integer] (.array []) =
      (0, some diag.type_error) ∧
    apply_loop 0 (fun (n : Nat) _ => n + 1) [mty.integer]
      (mobject.array [] :: [mobject.array [mobject.integer 7]]) =
      ((apply_loop 0 (fun (n : Nat) _ => n + 1) [mty.integer]
          [mobject.array [mobject.integer 7]]).1,
        diag.type_error :: (apply_loop 0 (fun (n : Nat) _ => n + 1)
          [mty.integer] [mobject.array [mobject.integer 7]]).2) :=
  C2_arity_too_few_discards 0 (fun n _ => n + 1) [mty.integer] []
    [mobject.array [mobject.integer 7]] (by decide)

/-- C10: a grid_line call on an in-bounds position whose first cell
update has the one-element [text] shape has no highlight to carry
forward (the update's highlight pointer is still null), so the handler
stops with an unknown-highlight diagnostic before writing any cell,
leaving the state unchanged. -/
theorem C10_first_update_text_only (st : ui_state) (row col : Nat)
    (txt : List Nat) (rest : List mobject)
    (hrow : row < st.writing.height) (hcol : col < st.writing.width) :
    st.grid_line 1 row col (mobject.array [mobject.string txt] :: rest) =
      some (st, some diag.unknown_highlight) := by
  have hg : st.get_grid 1 = some st.writing := rfl
  have hb : ¬(row ≥ st.writing.height ∨ col ≥ st.writing.width) := by
    omega
  simp only [ui_state.grid_line, hg]
  simp only [if_neg hb]
  simp [grid_line_loop, cell_update.set]

/-- C10 witness: the theorem applied at the initial state, row 0,
column 0, text "A". -/
theorem C10_first_update_text_only_witness :
    initial_state.grid_line 1 0 0 [mobject.array [mobject.string [65]]] =
      some (initial_state, some diag.unknown_highlight) :=
  C10_first_update_text_only initial_state 0 0 [65] [] (by decide)
    (by decide)

/-- C6: when a highlight definition map sets the reverse key, the
foreground/background swap happens exactly once as the final step, after
all other keys: defining with {foreground: c, reverse} (in either key
order) leaves the entry with background = c as an explicit RGB value and
foreground = the default entry's background, with the reverse flag set
and the other fields taken from the default entry. -/
theorem C6_reverse_applied_last (st : ui_state) (hlid : Nat) (c : Int)
    (hle : hlid ≤ st.hltable.table.length) (hc0 : 0 ≤ c)
    (hc : c < 2 ^ 32) :
    let d := st.hltable.get_default
    let e : highlight_attributes :=
      { foreground := d.background
        background := ⟨c.toNat, false⟩
        special := d.special
        fontattrs := d.fontattrs
        attrs := { d.attrs with reverse := true } }
    (st.hl_attr_define hlid
      [(.string key_foreground, .integer c),
       (.string key_reverse, .boolean true)]).hltable.table[hlid]? =
      some e ∧
    (st.hl_attr_define hlid
      [(.string key_reverse, .boolean true),
       (.string key_foreground, .integer c)]).hltable.table[hlid]? =
      some e := by
  intro d e
  obtain ⟨hidx, hlen, hget⟩ := new_entry_le st.hltable hlid hle
  have huint : int_as_uint32 c = c.toNat := by
    unfold int_as_uint32
    rw [Int.emod_eq_of_lt hc0 hc]
  have hstart :
      (st.hltable.new_entry hlid).1.table.getD hlid
        default_highlight_attributes = d := by
    rw [List.getD_eq_getElem?_getD, hget]
    rfl
  have hfg : ∀ (x : highlight_attributes) (b : Bool),
      apply_hl_key (x, b) (.string key_foreground, .integer c) =
        ({ x with foreground := ⟨c.toNat, false⟩ }, b) := by
    intro x b
    simp [apply_hl_key, set_rgb_color, huint]
  have hrev : ∀ (x : highlight_attributes) (b : Bool),
      apply_hl_key (x, b) (.string key_reverse, .boolean true) =
        ({ x with attrs := { x.attrs with reverse := true } }, true) := by
    intro x b
    simp [apply_hl_key, key_foreground, key_background, key_underline,
          key_bold, key_italic, key_strikethrough, key_undercurl,
          key_special, key_reverse]
  constructor
  · show (ui_state.hl_attr_define st hlid _).hltable.table[hlid]? = some e
    unfold ui_state.hl_attr_define
    simp only [List.foldl_cons, List.foldl_nil, hidx, hstart, hfg, hrev]
    rw [List.getElem?_set_self (by omega)]
    simp only [if_true]
  · show (ui_state.hl_attr_define st hlid _).hltable.table[hlid]? = some e
    unfold ui_state.hl_attr_define
    simp only [List.foldl_cons, List.foldl_nil, hidx, hstart, hfg, hrev]
    rw [List.getElem?_set_self (by omega)]
    simp only [if_true]

/-- C6 witness: the theorem applied at the initial state, id 1,
foreground color 0xFF0000. -/
theorem C6_reverse_applied_last_witness :
    let d := initial_state.hltable.get_default
    let e : highlight_attributes :=
      { foreground := d.background
        background := ⟨(16711680 : Int).toNat, false⟩
        special := d.special
        fontattrs := d.fontattrs
        attrs := { d.attrs with reverse := true } }
    (initial_state.hl_attr_define 1
      [(.string key_foreground, .integer 16711680),
       (.string key_reverse, .boolean true)]).hltable.table[1]? =
      some e ∧
    (initial_state.hl_attr_define 1
      [(.string key_reverse, .boolean true),
       (.string key_foreground, .integer 16711680)]).hltable.table[1]? =
      some e :=
  C6_reverse_applied_last initial_state 1 16711680 (by decide) (by decide)
    (by decide)

/-- C7: default_colors_set(fg, bg, sp) stores the three new colors into
the default highlight entry with its font-style and decoration flags
cleared, leaves every other table entry untouched, rewrites exactly the
cell color fields holding the default sentinel to the corresponding new
color while explicit colors and all text/hash/size data are unchanged,
and does not touch the published grid or the writing grid's dimensions
and draw-tick. -/
theorem C7_default_colors_set (st : ui_state) (fg bg sp : Nat)
    (hne : st.hltable.table ≠ []) :
    let res := st.default_colors_set fg bg sp
    res.hltable.table[0]? = some
      { foreground := ⟨fg, true⟩
        background := ⟨bg, true⟩
        special := ⟨sp, true⟩
        fontattrs := {}
        attrs := {} } ∧
    (∀ i, 1 ≤ i → res.hltable.table[i]? = st.hltable.table[i]?) ∧
    res.writing.width = st.writing.width ∧
    res.writing.height = st.writing.height ∧
    res.writing.draw_tick = st.writing.draw_tick ∧
    res.complete = st.complete ∧
    res.writing.cells.length = st.writing.cells.length ∧
    (∀ (i : Nat) (c : cell), st.writing.cells[i]? = some c →
      ∃ c' : cell, res.writing.cells[i]? = some c' ∧
        c'.text = c.text ∧ c'.hash = c.hash ∧ c'.size = c.size ∧
        c'.hl_attrs.fontattrs = c.hl_attrs.fontattrs ∧
        c'.hl_attrs.attrs = c.hl_attrs.attrs ∧
        (c.hl_attrs.foreground.is_default = true →
          c'.hl_attrs.foreground = ⟨fg, true⟩) ∧
        (c.hl_attrs.foreground.is_default = false →
          c'.hl_attrs.foreground = c.hl_attrs.foreground) ∧
        (c.hl_attrs.background.is_default = true →
          c'.hl_attrs.background = ⟨bg, true⟩) ∧
        (c.hl_attrs.background.is_default = false →
          c'.hl_attrs.background = c.hl_attrs.background) ∧
        (c.hl_attrs.special.is_default = true →
          c'.hl_attrs.special = ⟨sp, true⟩) ∧
        (c.hl_attrs.special.is_default = false →
          c'.hl_attrs.special = c.hl_attrs.special)) := by
  intro res
  have h0 : 0 < st.hltable.table.length := List.length_pos.mpr hne
  refine ⟨?_, ?_, rfl, rfl, rfl, rfl, List.length_map _ _, ?_⟩
  · exact List.getElem?_set_self h0
  · intro i hi
    exact List.getElem?_set_ne (by omega)
  · intro i c hc
    refine ⟨recolor_cell ⟨fg, true⟩ ⟨bg, true⟩ ⟨sp, true⟩ c, ?_, ?_, ?_,
            ?_, ?_, ?_, ?_, ?_, ?_, ?_, ?_, ?_⟩
    · show (st.writing.cells.map _)[i]? = _
      rw [List.getElem?_map, hc]
      rfl
    · rfl
    · rfl
    · rfl
    · rfl
    · rfl
    · intro h; simp [recolor_cell, h]
    · intro h; simp [recolor_cell, h]
    · intro h; simp [recolor_cell, h]
    · intro h; simp [recolor_cell, h]
    · intro h; simp [recolor_cell, h]
    · intro h; simp [recolor_cell, h]

/-- C7 witness: the theorem applied at the initial state with colors
(1, 2, 3). -/
theorem C7_default_colors_set_witness :
    (initial_state.default_colors_set 1 2 3).hltable.table[0]? = some
      { foreground := ⟨1, true⟩
        background := ⟨2, true⟩
        special := ⟨3, true⟩
        fontattrs := {}
        attrs := {} } :=
  (C7_default_colors_set initial_state 1 2 3 (by decide)).1

/-- C3: a grid_line call at an in-bounds (row, col) whose updates are
well-formed [text, hl_id, repeat] tuples with resolvable highlight ids
and repeats fitting the row writes, for each update of repeat r, exactly
r contiguous copies of the resolved, value-copied cell starting at the
update's start column, advances the write cursor by r (the second update
lands exactly r1 cells after the first), and leaves every other cell
unchanged. -/
theorem C3_grid_line_repeat (st : ui_state) (row col : Nat)
    (txt1 txt2 : List Nat) (hlid1 hlid2 r1 r2 : Nat)
    (hl1 hl2 : highlight_attributes)
    (hrow : row < st.writing.height) (hcol : col < st.writing.width)
    (hlen : st.writing.cells.length = st.writing.width * st.writing.height)
    (hb1 : hlid1 < 2 ^ 64) (hb2 : hlid2 < 2 ^ 64)
    (hr1b : r1 < 2 ^ 64) (hr2b : r2 < 2 ^ 64)
    (hhl1 : st.hltable.get_entry hlid1 = some hl1)
    (hhl2 : st.hltable.get_entry hlid2 = some hl2)
    (h1 : 1 ≤ r1) (h2 : 1 ≤ r2)
    (hsum : r1 + r2 ≤ st.writing.width - col) :
    ∃ cells' : List cell,
      st.grid_line 1 row col
        [.array [.string txt1, .integer (hlid1 : Int),
                 .integer (r1 : Int)],
         .array [.string txt2, .integer (hlid2 : Int),
                 .integer (r2 : Int)]] =
        some ({ st with writing := { st.writing with cells := cells' } },
              none) ∧
      (∀ j, j < r1 →
        cells'[row * st.writing.width + col + j]? =
          some (make_cell txt1 hl1)) ∧
      (∀ j, j < r2 →
        cells'[row * st.writing.width + col + r1 + j]? =
          some (make_cell txt2 hl2)) ∧
      (∀ k, k < row * st.writing.width + col ∨
            row * st.writing.width + col + r1 + r2 ≤ k →
        cells'[k]? = st.writing.cells[k]?) := by
  have hg : st.get_grid 1 = some st.writing := rfl
  have hm1 : (row + 1) * st.writing.width =
      row * st.writing.width + st.writing.width := by ring
  have hm2 : (row + 1) * st.writing.width ≤
      st.writing.height * st.writing.width :=
    Nat.mul_le_mul_right _ (by omega)
  have hm3 : st.writing.width * st.writing.height =
      st.writing.height * st.writing.width := Nat.mul_comm _ _
  have hlen2 : row * st.writing.width + col + r1 + r2 ≤
      st.writing.cells.length := by omega
  refine ⟨write_block
      (write_block st.writing.cells (row * st.writing.width + col)
        (List.replicate r1 (make_cell txt1 hl1)))
      (row * st.writing.width + col + r1)
      (List.replicate r2 (make_cell txt2 hl2)), ?_, ?_, ?_, ?_⟩
  · simp only [ui_state.grid_line, hg]
    rw [if_neg (show ¬(row ≥ st.writing.height ∨
          col ≥ st.writing.width) by omega)]
    rw [grid_line_loop_step st.hltable st.writing.cells
          (row * st.writing.width + col) (st.writing.width - col) {} none
          txt1 hlid1 r1 hl1 _ hb1 hr1b hhl1 h1 (by omega)]
    rw [grid_line_loop_step st.hltable _
          (row * st.writing.width + col + r1)
          (st.writing.width - col - r1) _ none
          txt2 hlid2 r2 hl2 _ hb2 hr2b hhl2 h2 (by omega)]
    rfl
  · intro j hj
    rw [write_block_getElem_out _ _ _ _ (Or.inl (by omega))]
    rw [write_block_getElem_in _ _ _ _ (by simp; omega) (by simp; omega)]
    simp [hj]
  · intro j hj
    rw [write_block_getElem_in _ _ _ _
          (by rw [write_block_length]; simp; omega) (by simp; omega)]
    simp [hj]
  · intro k hk
    rw [write_block_getElem_out _ _ _ _ (by simp; omega)]
    rw [write_block_getElem_out _ _ _ _ (by simp; omega)]

/-- C3 witness: the theorem applied at a one-row 4-cell state, writing
"A" with repeat 2 then "B" with repeat 1, both with highlight id 0. -/
theorem C3_grid_line_repeat_witness :
    ∃ cells' : List cell,
      wide_state.grid_line 1 0 0
        [.array [.string [65], .integer ((0 : Nat) : Int),
                 .integer ((2 : Nat) : Int)],
         .array [.string [66], .integer ((0 : Nat) : Int),
                 .integer ((1 : Nat) : Int)]] =
        some ({ wide_state with writing :=
                  { wide_state.writing with cells := cells' } }, none) ∧
      (∀ j, j < 2 →
        cells'[0 * wide_state.writing.width + 0 + j]? =
          some (make_cell [65] default_highlight_attributes)) ∧
      (∀ j, j < 1 →
        cells'[0 * wide_state.writing.width + 0 + 2 + j]? =
          some (make_cell [66] default_highlight_attributes)) ∧
      (∀ k, k < 0 * wide_state.writing.width + 0 ∨
            0 * wide_state.writing.width + 0 + 2 + 1 ≤ k →
        cells'[k]? = wide_state.writing.cells[k]?) :=
  C3_grid_line_repeat wide_state 0 0 [65] [66] 0 0 2 1
    default_highlight_attributes default_highlight_attributes
    (by decide) (by decide) (by decide) (by decide) (by decide)
    (by decide) (by decide) (by decide) (by decide) (by decide)
    (by decide) (by decide)

/-- C4: a grid_line call whose update u overflows the cells remaining in
the row (after a successfully applied prefix us) stops at u with a
row-overflow diagnostic: the failing update writes no cell, the prefix's
writes are kept (the resulting cells are exactly those produced by us),
and the result does not depend on what follows the failing update, so
re-running identical input from the identical state gives the identical
result. -/
theorem C4_row_overflow_stops (st : ui_state) (row col : Nat)
    (us rest rest' : List mobject) (u : mobject) (upd' : cell_update)
    (hrow : row < st.writing.height) (hcol : col < st.writing.width) :
    let s0 : line_state :=
      { cells := st.writing.cells
        pos := row * st.writing.width + col
        remaining := st.writing.width - col }
    (grid_line_loop st.hltable s0 us).err = none →
    (grid_line_loop st.hltable s0 us).upd.set u st.hltable = some upd' →
    upd'.hlattr.isSome = true →
    upd'.rep > (grid_line_loop st.hltable s0 us).remaining →
    (st.grid_line 1 row col (us ++ u :: rest) =
      some ({ st with writing := { st.writing with
                cells := (grid_line_loop st.hltable s0 us).cells } },
            some diag.row_overflow) ∧
     st.grid_line 1 row col (us ++ u :: rest) =
       st.grid_line 1 row col (us ++ u :: rest')) := by
  intro s0 hok hset hhl hover
  obtain ⟨hl, hhl'⟩ := Option.isSome_iff_exists.mp hhl
  have hg : st.get_grid 1 = some st.writing := rfl
  have hbnd : ¬(row ≥ st.writing.height ∨ col ≥ st.writing.width) := by
    omega
  have hstop : ∀ (tail : List mobject),
      grid_line_loop st.hltable s0 (us ++ u :: tail) =
        { grid_line_loop st.hltable s0 us with
          upd := upd', err := some diag.row_overflow } := by
    intro tail
    rw [grid_line_loop_append st.hltable us s0 rfl (u :: tail),
        if_pos hok]
    simp only [grid_line_loop, hset, hhl']
    rw [if_pos hover]
  have hform : ∀ (tail : List mobject),
      st.grid_line 1 row col (us ++ u :: tail) =
        some ({ st with writing := { st.writing with
                  cells := (grid_line_loop st.hltable s0 us).cells } },
              some diag.row_overflow) := by
    intro tail
    simp only [ui_state.grid_line, hg]
    rw [if_neg hbnd]
    show some ({ st with writing := { st.writing with
        cells := (grid_line_loop st.hltable s0 (us ++ u :: tail)).cells } },
        (grid_line_loop st.hltable s0 (us ++ u :: tail)).err) = _
    rw [hstop tail]
  exact ⟨hform rest, (hform rest).trans (hform rest').symm⟩

/-- C4 witness: on a one-row 4-cell grid, "A" repeat 2 succeeds, then
"B" repeat 3 overflows the 2 remaining cells. -/
theorem C4_row_overflow_stops_witness :
    wide_state.grid_line 1 0 0
      ([mobject.array [mobject.string [65], mobject.integer 0,
          mobject.integer 2]] ++
        mobject.array [mobject.string [66], mobject.integer 0,
          mobject.integer 3] :: []) =
      some ({ wide_state with writing := { wide_state.writing with
                cells := (grid_line_loop wide_state.hltable
                  { cells := wide_state.writing.cells
                    pos := 0 * wide_state.writing.width + 0
                    remaining := wide_state.writing.width - 0 }
                  [mobject.array [mobject.string [65], mobject.integer 0,
                    mobject.integer 2]]).cells } },
            some diag.row_overflow) :=
  (C4_row_overflow_stops wide_state 0 0
    [mobject.array [mobject.string [65], mobject.integer 0,
      mobject.integer 2]] [] []
    (mobject.array [mobject.string [66], mobject.integer 0,
      mobject.integer 3])
    { text := [66], hlattr := some default_highlight_attributes, rep := 3 }
    (by decide) (by decide) (by decide) (by decide) (by decide)
    (by decide)).1

theorem grid_scroll_pos_unfold (st : ui_state)
    (top bottom left right : Nat) (rows : Int)
    (h1 : ¬(bottom < top ∨ right < left))
    (h2 : ¬(bottom > st.writing.height ∨ right > st.writing.width))
    (h5 : 0 ≤ rows) :
    st.grid_scroll 1 top bottom left right rows =
      some ({ st with writing := { st.writing with cells :=
        (scroll_loop st.writing.cells
          ((top * st.writing.width + left : Nat) : Int)
          (((top * st.writing.width + left : Nat) : Int) +
            (st.writing.width : Int) * rows)
          (st.writing.width : Int) (right - left)
          ((((bottom - top : Nat) : Int) - rows)).toNat) } }, none) := by
  have hg : st.get_grid 1 = some st.writing := rfl
  simp only [ui_state.grid_scroll, hg]
  rw [if_neg h1, if_neg h2, if_pos h5]

/-- C5: grid_scroll on a valid rectangle [top,bottom)x[left,right) with
0 <= rows < bottom-top succeeds, and afterwards every destination row rI
in [top, bottom-rows) holds, over columns [left,right), the prior
contents of row rI+rows — uncorrupted even though the source and
destination row ranges overlap — while every cell outside the copied
destination region is unchanged. -/
theorem C5_grid_scroll_overlap_safe (st : ui_state)
    (top bottom left right : Nat) (rows : Int)
    (h1 : top ≤ bottom) (h2 : bottom ≤ st.writing.height)
    (h3 : left ≤ right) (h4 : right ≤ st.writing.width)
    (h5 : 0 ≤ rows) (h6 : rows < (bottom : Int) - (top : Int))
    (hlen : st.writing.cells.length =
      st.writing.width * st.writing.height) :
    ∃ cells' : List cell,
      st.grid_scroll 1 top bottom left right rows =
        some ({ st with writing := { st.writing with cells := cells' } },
              none) ∧
      (∀ rI cI, top ≤ rI → rI < bottom - rows.toNat → left ≤ cI →
          cI < right →
        cells'[rI * st.writing.width + cI]? =
          st.writing.cells[(rI + rows.toNat) * st.writing.width + cI]?) ∧
      (∀ k, (∀ rI cI, top ≤ rI → rI < bottom - rows.toNat → left ≤ cI →
          cI < right → k ≠ rI * st.writing.width + cI) →
        cells'[k]? = st.writing.cells[k]?) := by
  have hrows : rows = ((rows.toNat : Nat) : Int) :=
    (Int.toNat_of_nonneg h5).symm
  have hsrc : ((top * st.writing.width + left : Nat) : Int) +
      (st.writing.width : Int) * rows =
      (((top + rows.toNat) * st.writing.width + left : Nat) : Int) := by
    conv_lhs => rw [hrows]
    push_cast
    ring
  have hcount : ((((bottom - top : Nat) : Int) - rows)).toNat =
      bottom - top - rows.toNat := by
    omega
  have hunf := grid_scroll_pos_unfold st top bottom left right rows
    (by omega) (by omega) h5
  rw [hsrc, hcount, scroll_loop_int_eq_nat] at hunf
  refine ⟨scroll_loop_nat st.writing.cells
      (top * st.writing.width + left)
      ((top + rows.toNat) * st.writing.width + left)
      st.writing.width (right - left) (bottom - top - rows.toNat),
    hunf, ?_, ?_⟩
  · intro rI cI hr1 hr2 hc1 hc2
    by_cases hrn : rows.toNat = 0
    · rw [hrn, Nat.add_zero, Nat.sub_zero, scroll_loop_nat_self]
      rw [show rI + 0 = rI from rfl]
    · have hb1 : bottom * st.writing.width ≤
          st.writing.height * st.writing.width :=
        Nat.mul_le_mul_right _ h2
      have hb2 : (top + (bottom - top - rows.toNat) + rows.toNat) *
          st.writing.width = bottom * st.writing.width := by
        rw [show top + (bottom - top - rows.toNat) + rows.toNat = bottom
              from by omega]
      have hb3 : st.writing.width * st.writing.height =
          st.writing.height * st.writing.width := Nat.mul_comm _ _
      exact (scroll_loop_nat_spec st.writing.width rows.toNat left
        (right - left) st.writing.cells (by omega) (by omega)
        (bottom - top - rows.toNat) top st.writing.cells rfl (by omega)
        (fun k _ => rfl)).1 rI cI hr1 (by omega) hc1 (by omega)
  · intro k hknot
    by_cases hrn : rows.toNat = 0
    · rw [hrn, Nat.add_zero, Nat.sub_zero, scroll_loop_nat_self]
    · have hb1 : bottom * st.writing.width ≤
          st.writing.height * st.writing.width :=
        Nat.mul_le_mul_right _ h2
      have hb2 : (top + (bottom - top - rows.toNat) + rows.toNat) *
          st.writing.width = bottom * st.writing.width := by
        rw [show top + (bottom - top - rows.toNat) + rows.toNat = bottom
              from by omega]
      have hb3 : st.writing.width * st.writing.height =
          st.writing.height * st.writing.width := Nat.mul_comm _ _
      exact (scroll_loop_nat_spec st.writing.width rows.toNat left
        (right - left) st.writing.cells (by omega) (by omega)
        (bottom - top - rows.toNat) top st.writing.cells rfl (by omega)
        (fun k' _ => rfl)).2 k
        (fun rI cI ha hb hc hd => hknot rI cI ha (by omega) hc (by omega))

/-- C5 witness: scrolling a 4 x 2 grid's full rectangle up by one row. -/
theorem C5_grid_scroll_overlap_safe_witness :
    ∃ cells' : List cell,
      initial_state.grid_scroll 1 0 2 0 4 1 =
        some ({ initial_state with writing :=
                  { initial_state.writing with cells := cells' } }, none) ∧
      (∀ rI cI, 0 ≤ rI → rI < 2 - (1 : Int).toNat → 0 ≤ cI → cI < 4 →
        cells'[rI * initial_state.writing.width + cI]? =
          initial_state.writing.cells[(rI + (1 : Int).toNat) *
            initial_state.writing.width + cI]?) ∧
      (∀ k, (∀ rI cI, 0 ≤ rI → rI < 2 - (1 : Int).toNat → 0 ≤ cI →
          cI < 4 → k ≠ rI * initial_state.writing.width + cI) →
        cells'[k]? = initial_state.writing.cells[k]?) :=
  C5_grid_scroll_overlap_safe initial_state 0 2 0 4 1 (by decide)
    (by decide) (by decide) (by decide) (by decide) (by decide) (by decide)

end UI
